import Mathlib

/-!
Shallow embedding of the vector-shape editor core from
`src/use-vector-plotter.ts` and `src/canvas.tsx` (marozzocom/vector).

JavaScript numbers are modelled by exact rationals (`ℚ`).  Where the source
can produce non-finite values (division by zero in `serializeToSVG`), an
explicit `JNum` type with `nan` and signed infinities models the IEEE
behaviour.  Trigonometric constants `Math.cos angle` / `Math.sin angle` are
passed in as a pair `(c, s)` of rationals; for a genuine angle they satisfy
`c ^ 2 + s ^ 2 = 1`, which is the only property of them the code relies on.
-/

namespace VectorPlotter

/-- `type Vector = { x: number; y: number }` from use-vector-plotter.ts. -/
structure Vector where
  x : ℚ
  y : ℚ
deriving DecidableEq, Repr

/-- `type PlottedVector = { vector: Vector; color?: string; opacity?: number }`;
the optional fields are `Option`s, `none` standing for `undefined`. -/
structure PlottedVector where
  vector : Vector
  color : Option String := none
  opacity : Option ℚ := none
deriving DecidableEq, Repr

instance : Inhabited PlottedVector := ⟨{ vector := ⟨0, 0⟩ }⟩

/-- `type Shapes = Array<Array<PlottedVector>>`. -/
abbrev Shapes := List (List PlottedVector)

/-- `const createVector = (x, y) => ({ x, y })`. -/
def createVector (x y : ℚ) : Vector := ⟨x, y⟩

/-- `const addVectors = (v1, v2) => ({ x: v1.x + v2.x, y: v1.y + v2.y })`. -/
def addVectors (v1 v2 : Vector) : Vector := ⟨v1.x + v2.x, v1.y + v2.y⟩

/-- `const subtractVectors = (v1, v2) => ({ x: v1.x - v2.x, y: v1.y - v2.y })`. -/
def subtractVectors (v1 v2 : Vector) : Vector := ⟨v1.x - v2.x, v1.y - v2.y⟩

/-- `const scaleVector = (v, scalar) => ({ x: v.x * scalar, y: v.y * scalar })`. -/
def scaleVector (v : Vector) (scalar : ℚ) : Vector := ⟨v.x * scalar, v.y * scalar⟩

/-- `calculateCenter`: `shape.reduce((acc, v) => addVectors(acc, v.vector),
createVector(0, 0))` scaled by `1 / shape.length`.  In the source a
zero-length shape makes `1 / shape.length` non-finite; no caller ever uses
the centre of an empty shape (all uses map over the empty point list), and
here `(1 : ℚ) / 0 = 0` keeps the definition total with the same observable
behaviour. -/
def calculateCenter (shape : List PlottedVector) : Vector :=
  scaleVector (shape.foldl (fun acc v => addVectors acc v.vector) (createVector 0 0))
    (1 / (shape.length : ℚ))

/-- `scaleShape(shapeIndex, scalar)`: every point of the shape at
`shapeIndex` is replaced by `center + (point - center) * scalar`.  The
result object literal carries only `vector` and `color`, so `opacity` is
`undefined` (`none`) on every produced point, exactly as in the source. -/
def scaleShape (shapes : Shapes) (shapeIndex : ℕ) (scalar : ℚ) : Shapes :=
  let shape := shapes.getD shapeIndex []
  let center := calculateCenter shape
  shapes.set shapeIndex <| shape.map fun v =>
    { vector := addVectors (scaleVector (subtractVectors v.vector center) scalar) center
      color := v.color
      opacity := none }

/-- `translateShape(shapeIndex, translation)`: every point gains `translation`.
As in the source, the produced object literal has no `opacity` field. -/
def translateShape (shapes : Shapes) (shapeIndex : ℕ) (t : Vector) : Shapes :=
  shapes.set shapeIndex <| (shapes.getD shapeIndex []).map fun v =>
    { vector := addVectors v.vector t
      color := v.color
      opacity := none }

/-- The arrow function inside `rotateShape`: rotate one point about
`center` by the linear map `[[c, -s], [s, c]]`; the produced object literal
has `vector` and `color` only, so `opacity` is `undefined`. -/
def rotatePoint (c s : ℚ) (center : Vector) (v : PlottedVector) : PlottedVector :=
  let translated := subtractVectors v.vector center
  let rotated := createVector (c * translated.x - s * translated.y)
    (s * translated.x + c * translated.y)
  { vector := addVectors rotated center
    color := v.color
    opacity := none }

/-- `rotateShape(shapeIndex, angle)`: the source computes
`cos = Math.cos(angle)` and `sin = Math.sin(angle)` once and then applies the
linear map `[[cos, -sin], [sin, cos]]` about the centroid.  Here the two
precomputed constants are the parameters `c` and `s`.  As in the source, the
produced object literal has no `opacity` field. -/
def rotateShape (shapes : Shapes) (shapeIndex : ℕ) (c s : ℚ) : Shapes :=
  let shape := shapes.getD shapeIndex []
  let center := calculateCenter shape
  shapes.set shapeIndex (shape.map (rotatePoint c s center))

/-- `duplicateShape(shapeIndex)`: shallow-copies every point (`{...v}` keeps
`color` and `opacity`), translates the copy by `(0.5, 0.5)` and pushes it at
the end of the collection. -/
def duplicateShape (shapes : Shapes) (shapeIndex : ℕ) : Shapes :=
  let newShape := (shapes.getD shapeIndex []).map fun v => v
  let translatedNewShape := newShape.map fun v =>
    { v with vector := addVectors v.vector (createVector 0.5 0.5) }
  shapes ++ [translatedNewShape]

/-- Index-aware filter underlying `shapes.filter((_, i) => i !== index)`;
`j` is the index of the head of the remaining list. -/
def filterIndexNe (index : ℤ) : ℕ → Shapes → Shapes
  | _, [] => []
  | j, shape :: rest =>
    if (j : ℤ) = index then filterIndexNe index (j + 1) rest
    else shape :: filterIndexNe index (j + 1) rest

/-- `removeShape(index)`: `shapes.filter((_, i) => i !== index)`.  The index
is an arbitrary JS number (here `ℤ`); `filter` never throws, it simply keeps
every element whose position differs from `index`. -/
def removeShape (shapes : Shapes) (index : ℤ) : Shapes :=
  filterIndexNe index 0 shapes

/-- The two pieces of `useState` the claims touch: the shape collection and
the selected-shape index (`number | null`). -/
structure PlotterState where
  shapes : Shapes
  selectedShape : Option ℤ
deriving DecidableEq, Repr

/-- `useState<Shapes>([[]])` and `useState<number | null>(0)`: the session
starts with one empty shape and shape 0 selected. -/
def initialState : PlotterState :=
  { shapes := [[]], selectedShape := some 0 }

/-- `clearVectors()`: `setShapes([])`; the selection is untouched. -/
def clearVectors (st : PlotterState) : PlotterState :=
  { st with shapes := [] }

/-- `duplicateShape` at the state level: only `shapes` is written
(`setShapes(newShapes)`); the selection state is untouched. -/
def duplicateShapeS (st : PlotterState) (shapeIndex : ℕ) : PlotterState :=
  { st with shapes := duplicateShape st.shapes shapeIndex }

/-- The piece of the `CanvasRenderingContext2D` that
`transformPixelToVector` reads: the canvas size. -/
structure CanvasContext where
  width : ℚ
  height : ℚ
deriving DecidableEq, Repr

/-- `transformPixelToVector(x, y)`: returns `(0, 0)` when no context is
attached, otherwise `((x - centerX) / scale, (centerY - y) / scale)` with
the centre at half the canvas size. -/
def transformPixelToVector (context : Option CanvasContext) (scale : ℚ)
    (x y : ℚ) : Vector :=
  match context with
  | none => createVector 0 0
  | some ctx =>
    let centerX := ctx.width / 2
    let centerY := ctx.height / 2
    createVector ((x - centerX) / scale) ((centerY - y) / scale)

/-- A JavaScript number that may be non-finite: the IEEE special values
`NaN`, `+Infinity` and `-Infinity` next to the exact finite values. -/
inductive JNum where
  | num (q : ℚ)
  | posInf
  | negInf
  | nan
deriving DecidableEq, Repr

/-- JS division `a / b` on finite operands: division by zero yields `NaN`
for `0 / 0` and a signed infinity otherwise. -/
def jsDiv (a b : ℚ) : JNum :=
  if b = 0 then (if a = 0 then .nan else if 0 < a then .posInf else .negInf)
  else .num (a / b)

/-- JS multiplication of a possibly non-finite left operand by a finite
right operand (`Infinity * 0 = NaN`). -/
def jsMul : JNum → ℚ → JNum
  | .num a, b => .num (a * b)
  | .nan, _ => .nan
  | .posInf, b => if b = 0 then .nan else if 0 < b then .posInf else .negInf
  | .negInf, b => if b = 0 then .nan else if 0 < b then .negInf else .posInf

/-- JS addition of a possibly non-finite left operand and a finite right
operand. -/
def jsAdd : JNum → ℚ → JNum
  | .num a, b => .num (a + b)
  | .nan, _ => .nan
  | .posInf, _ => .posInf
  | .negInf, _ => .negInf

/-- JS subtraction `a - j` of a possibly non-finite value from a finite one. -/
def jsSub (a : ℚ) : JNum → JNum
  | .num b => .num (a - b)
  | .nan => .nan
  | .posInf => .negInf
  | .negInf => .posInf

/-- `serializeToSVG`'s inner `scaleCoordinate(value, max)`:
`(value / max) * (width < height ? width : height) * 0.5`.  There is no
guard on `max = 0` in the source, so the division is modelled with JS
semantics. -/
def scaleCoordinate (width height value maxv : ℚ) : JNum :=
  jsMul (jsDiv value maxv) ((if width < height then width else height) * 0.5)

/-- `serializeToSVG`'s `maxValue`: `shapes.flat().reduce((max, vector) =>
Math.max(max, Math.abs(x), Math.abs(y)), 0)`. -/
def maxAbsCoord (shapes : Shapes) : ℚ :=
  shapes.flatten.foldl (fun m v => max m (max |v.vector.x| |v.vector.y|)) 0

/-- The numeric content of `serializeToSVG(width, height)`: for each shape
the list of `(x, y)` path coordinates it emits, with
`x = scaleCoordinate(worldX) + width / 2` and
`y = height / 2 - scaleCoordinate(worldY)`.  An empty shape emits no
coordinates (the source returns an empty path string for it).  The textual
wrapping (`toFixed(2)`, `<path>` markup) carries no further numeric
content and is not modelled. -/
def svgPathCoords (shapes : Shapes) (width height : ℚ) : List (List (JNum × JNum)) :=
  let maxValue := maxAbsCoord shapes
  shapes.map fun shape =>
    if shape.length = 0 then []
    else shape.map fun plotted =>
      (jsAdd (scaleCoordinate width height plotted.vector.x maxValue) (width / 2),
       jsSub (height / 2) (scaleCoordinate width height plotted.vector.y maxValue))

/-- Modelled from the spec: the Hit Tester's point-to-segment distance.
`selectShapeWithPointer` is called from canvas.tsx but its definition is not
among the provided sources, so §4.5 of the spec is followed: project the
click point onto the segment, clamp the projection parameter to `[0, 1]`,
and guard a zero-length segment by falling back to point-to-point distance.
To stay in exact rational arithmetic the SQUARED Euclidean distance is
returned; comparisons against a threshold use the squared threshold, which
is equivalent for nonnegative thresholds. -/
def segDistSq (p a b : Vector) : ℚ :=
  let dx := b.x - a.x
  let dy := b.y - a.y
  let l2 := dx * dx + dy * dy
  if l2 = 0 then (p.x - a.x) * (p.x - a.x) + (p.y - a.y) * (p.y - a.y)
  else
    let t := ((p.x - a.x) * dx + (p.y - a.y) * dy) / l2
    let tc := max 0 (min 1 t)
    (p.x - (a.x + tc * dx)) * (p.x - (a.x + tc * dx))
      + (p.y - (a.y + tc * dy)) * (p.y - (a.y + tc * dy))

/-- Modelled from the spec (§4.5): a shape is hit when some segment of its
CLOSED polyline (point `j` to point `(j + 1) % length`) is within
`threshold` of the click point.  `distance ≤ threshold` is rendered as
`0 ≤ threshold ∧ distance² ≤ threshold²`, its exact rational equivalent. -/
def shapeHit (shape : List PlottedVector) (p : Vector) (threshold : ℚ) : Bool :=
  decide (0 ≤ threshold) &&
    (List.range shape.length).any fun j =>
      decide (segDistSq p ((shape.getD j default).vector)
        ((shape.getD ((j + 1) % shape.length) default).vector)
          ≤ threshold * threshold)

/-- Modelled from the spec (§4.5): scan the shapes in ascending index
order, returning the position of the first hit. -/
def firstHitIndex (p : Vector) (threshold : ℚ) : Shapes → Option ℕ
  | [] => none
  | shape :: rest =>
    if shapeHit shape p threshold then some 0
    else (firstHitIndex p threshold rest).map (· + 1)

/-- Modelled from the spec (§4.5): `selectShapeWithPointer(clickPoint,
threshold)` returns the index of the first shape within threshold, `-1`
when no shape qualifies. -/
def selectShapeWithPointer (shapes : Shapes) (p : Vector) (threshold : ℚ) : ℤ :=
  match firstHitIndex p threshold shapes with
  | some i => (i : ℤ)
  | none => -1

/-! ## Helper lemmas -/

/-- Writing back the element a list already holds leaves it unchanged
(out-of-range writes are no-ops as well). -/
theorem list_set_getD_self {α : Type} : ∀ (l : List α) (i : ℕ) (d : α),
    l.set i (l.getD i d) = l
  | [], _, _ => rfl
  | _ :: _, 0, _ => rfl
  | a :: l, i + 1, d => by
    simpa [List.set, List.getD] using list_set_getD_self l i d

/-- Reading back an in-range write. -/
theorem list_getD_set_self {α : Type} : ∀ (l : List α) (i : ℕ) (a d : α),
    i < l.length → (l.set i a).getD i d = a
  | _ :: _, 0, _, _, _ => rfl
  | b :: l, i + 1, a, d, h => by
    simpa [List.set, List.getD] using
      list_getD_set_self l i a d (Nat.lt_of_succ_lt_succ h)

/-- `getD` after `map`, for in-range indices. -/
theorem list_getD_map {α β : Type} (f : α → β) :
    ∀ (l : List α) (i : ℕ) (d : α) (d' : β), i < l.length →
      (l.map f).getD i d' = f (l.getD i d)
  | _ :: _, 0, _, _, _ => rfl
  | a :: l, i + 1, d, d', h => by
    simpa [List.getD] using list_getD_map f l i d d' (Nat.lt_of_succ_lt_succ h)

/-- The element just past a list in an append of a singleton. -/
theorem list_getD_append_length {α : Type} : ∀ (l : List α) (a d : α),
    (l ++ [a]).getD l.length d = a
  | [], _, _ => rfl
  | b :: l, a, d => by simpa [List.getD] using list_getD_append_length l a d

/-! ## C7 -/

/-- C7: `transformPixelToVector(x, y)` returns
`((x - width / 2) / scale, (height / 2 - y) / scale)` when a rendering
surface is attached (with the y axis flipped), and `(0, 0)` for every input
when no surface is attached. -/
theorem transformPixelToVector_spec (ctx : CanvasContext) (scale x y : ℚ) :
    transformPixelToVector (some ctx) scale x y
      = createVector ((x - ctx.width / 2) / scale) ((ctx.height / 2 - y) / scale)
  ∧ transformPixelToVector none scale x y = createVector 0 0 :=
  ⟨rfl, rfl⟩

/-! ## C9 -/

/-- C9 counterexample: the collection right after `clearVectors()` differs
from the session's initial collection — `clearVectors` sets `[]`, while the
session starts with one empty shape, `[[]]`. -/
theorem clearVectors_cex :
    (clearVectors initialState).shapes ≠ initialState.shapes := by
  decide

/-- C9 (amended): `clearVectors()` resets the shape collection to the empty
collection `[]` from every reachable state; this never equals the initial
collection `[[]]`, which holds one empty shape. -/
theorem clearVectors_empties (st : PlotterState) :
    (clearVectors st).shapes = []
  ∧ initialState.shapes = [[]]
  ∧ (clearVectors st).shapes ≠ initialState.shapes := by
  refine ⟨rfl, rfl, ?_⟩
  simp [clearVectors, initialState]

/-! ## C10 -/

/-- C10: on a valid index holding a shape with zero points, all three
transforms return the collection unchanged — mapping over the empty point
list never consults the (degenerate) centroid. -/
theorem transform_empty_shape_id (shapes : Shapes) (i : ℕ) (k c s : ℚ)
    (t : Vector) (hi : i < shapes.length) (he : shapes.getD i [] = []) :
    scaleShape shapes i k = shapes
  ∧ translateShape shapes i t = shapes
  ∧ rotateShape shapes i c s = shapes := by
  have hset : shapes.set i [] = shapes := by
    have h0 := list_set_getD_self shapes i []
    rwa [he] at h0
  refine ⟨?_, ?_, ?_⟩ <;>
    simp only [scaleShape, translateShape, rotateShape, he, List.map_nil] <;>
    exact hset

/-- C10 witness at a concrete collection with an empty shape at index 0. -/
theorem transform_empty_shape_id_witness :
    scaleShape [[], [{ vector := ⟨1, 2⟩ }]] 0 3 = [[], [{ vector := ⟨1, 2⟩ }]]
  ∧ translateShape [[], [{ vector := ⟨1, 2⟩ }]] 0 ⟨1, 1⟩
      = [[], [{ vector := ⟨1, 2⟩ }]]
  ∧ rotateShape [[], [{ vector := ⟨1, 2⟩ }]] 0 0 1 = [[], [{ vector := ⟨1, 2⟩ }]] :=
  transform_empty_shape_id [[], [{ vector := ⟨1, 2⟩ }]] 0 3 0 1 ⟨1, 1⟩
    (by decide) (by decide)

/-! ## C8 -/

/-- An index that lies outside `[j, j + length)` filters nothing. -/
theorem filterIndexNe_out (index : ℤ) : ∀ (l : Shapes) (j : ℕ),
    (index < j ∨ (j : ℤ) + l.length ≤ index) → filterIndexNe index j l = l
  | [], _, _ => rfl
  | shape :: rest, j, h => by
    have hne : (j : ℤ) ≠ index := by
      rcases h with h | h
      · omega
      · simp only [List.length_cons] at h; push_cast at h; omega
    simp only [filterIndexNe, if_neg (fun hc => hne hc), List.cons.injEq, true_and]
    refine filterIndexNe_out index rest (j + 1) ?_
    rcases h with h | h
    · left; push_cast; omega
    · right; simp only [List.length_cons] at h; push_cast at h ⊢; omega

/-- An index equal to `j + n`, with `n` inside the list, erases the `n`-th
element. -/
theorem filterIndexNe_erase (index : ℤ) : ∀ (l : Shapes) (j n : ℕ),
    index = (j : ℤ) + n → n < l.length →
    filterIndexNe index j l = l.take n ++ l.drop (n + 1)
  | [], _, n, _, hn => absurd hn (by simp)
  | shape :: rest, j, 0, he, _ => by
    have hj : (j : ℤ) = index := by omega
    simp [filterIndexNe, if_pos hj, filterIndexNe_out index rest (j + 1)
      (Or.inl (by omega))]
  | shape :: rest, j, n + 1, he, hn => by
    have hne : (j : ℤ) ≠ index := by omega
    simp only [filterIndexNe, if_neg (fun hc => hne hc), List.take_succ_cons,
      List.drop_succ_cons, List.cons_append, List.cons.injEq, true_and]
    exact filterIndexNe_erase index rest (j + 1) n (by push_cast; omega)
      (by simp only [List.length_cons] at hn; omega)

/-- C8 counterexample: with a one-shape collection, `removeShape(5)` and
`removeShape(-1)` both return the collection unchanged — the out-of-range
index is silently ignored (the `filter` matches nothing), not rejected with
an index-out-of-range error. -/
theorem removeShape_cex :
    removeShape [[{ vector := ⟨1, 2⟩ }]] 5 = [[{ vector := ⟨1, 2⟩ }]]
  ∧ removeShape [[{ vector := ⟨1, 2⟩ }]] (-1) = [[{ vector := ⟨1, 2⟩ }]] := by
  constructor <;> rfl

/-- C8 (amended): `removeShape` with an out-of-range index (negative or
`≥` the collection length) silently leaves the collection unchanged — it
never signals an error; for every in-range index it removes exactly the
shape at that index, shifting all later indices down by one. -/
theorem removeShape_spec (shapes : Shapes) (index : ℤ) :
    ((index < 0 ∨ (shapes.length : ℤ) ≤ index) → removeShape shapes index = shapes)
  ∧ ∀ n : ℕ, index = n → n < shapes.length →
      removeShape shapes index = shapes.take n ++ shapes.drop (n + 1) := by
  constructor
  · intro h
    exact filterIndexNe_out index shapes 0 (by simpa using h)
  · intro n hn hlt
    exact filterIndexNe_erase index shapes 0 n (by omega) hlt

/-- C8 witness: the out-of-range no-op at index 5 and the in-range removal
of index 0, on concrete collections. -/
theorem removeShape_spec_witness :
    removeShape [[], [{ vector := ⟨1, 2⟩ }]] 5 = [[], [{ vector := ⟨1, 2⟩ }]]
  ∧ removeShape [[], [{ vector := ⟨1, 2⟩ }]] 0 = [[{ vector := ⟨1, 2⟩ }]] := by
  constructor
  · exact (removeShape_spec [[], [{ vector := ⟨1, 2⟩ }]] 5).1 (by decide)
  · have h0 := (removeShape_spec [[], [{ vector := ⟨1, 2⟩ }]] 0).2 0 rfl (by decide)
    simpa using h0

/-- Mapping a point function that always clears `opacity` yields an
all-`none` opacity column. -/
theorem map_opacity_none {F : PlottedVector → PlottedVector}
    (hF : ∀ v, (F v).opacity = none) (l : List PlottedVector) :
    l.map ((fun v => v.opacity) ∘ F) = List.replicate l.length none := by
  induction l with
  | nil => rfl
  | cons v t ih => simp [hF, ih, List.replicate_succ]

/-! ## C1 -/

/-- C1 counterexample: a point drawn with `opacity: 1` loses its opacity
under `scaleShape` — the transform's object literal carries only `vector`
and `color`, so the produced point's `opacity` is `undefined`. -/
theorem transform_opacity_cex :
    ((scaleShape [[{ vector := ⟨1, 0⟩, color := some "red", opacity := some 1 }]] 0 2).getD
        0 []).map (fun v => v.opacity)
      ≠ (([[{ vector := ⟨1, 0⟩, color := some "red", opacity := some 1 }]] : Shapes).getD
        0 []).map (fun v => v.opacity) := by
  decide

/-- C1 (amended): on every valid shape index, `scaleShape`,
`translateShape` and `rotateShape` leave the color of every point of that
shape unchanged, but drop its opacity: every point of the transformed shape
has `undefined` (`none`) opacity. -/
theorem transforms_color_opacity (shapes : Shapes) (i : ℕ) (k c s : ℚ)
    (t : Vector) (hi : i < shapes.length) :
    (((scaleShape shapes i k).getD i []).map (fun v => v.color)
        = (shapes.getD i []).map (fun v => v.color)
      ∧ ((scaleShape shapes i k).getD i []).map (fun v => v.opacity)
        = List.replicate (shapes.getD i []).length none)
  ∧ (((translateShape shapes i t).getD i []).map (fun v => v.color)
        = (shapes.getD i []).map (fun v => v.color)
      ∧ ((translateShape shapes i t).getD i []).map (fun v => v.opacity)
        = List.replicate (shapes.getD i []).length none)
  ∧ (((rotateShape shapes i c s).getD i []).map (fun v => v.color)
        = (shapes.getD i []).map (fun v => v.color)
      ∧ ((rotateShape shapes i c s).getD i []).map (fun v => v.opacity)
        = List.replicate (shapes.getD i []).length none) := by
  have hset : ∀ sh : List PlottedVector, (shapes.set i sh).getD i [] = sh :=
    fun sh => list_getD_set_self shapes i sh [] hi
  refine ⟨⟨?_, ?_⟩, ⟨?_, ?_⟩, ⟨?_, ?_⟩⟩ <;>
    simp only [scaleShape, translateShape, rotateShape, hset] <;>
    simp [rotatePoint, List.map_map, Function.comp] <;>
    exact map_opacity_none (fun v => rfl) _

/-- C1 witness at a one-shape collection with a styled point. -/
theorem transforms_color_opacity_witness :
    ((scaleShape [[{ vector := ⟨1, 0⟩, color := some "red", opacity := some 1 }]] 0 2).getD
        0 []).map (fun v => v.color)
      = (([[{ vector := ⟨1, 0⟩, color := some "red", opacity := some 1 }]] : Shapes).getD
        0 []).map (fun v => v.color)
  ∧ ((scaleShape [[{ vector := ⟨1, 0⟩, color := some "red", opacity := some 1 }]] 0 2).getD
        0 []).map (fun v => v.opacity) = List.replicate 1 none :=
  ⟨(transforms_color_opacity
      [[{ vector := ⟨1, 0⟩, color := some "red", opacity := some 1 }]] 0 2 0 0 ⟨0, 0⟩
      (by decide)).1.1,
   (transforms_color_opacity
      [[{ vector := ⟨1, 0⟩, color := some "red", opacity := some 1 }]] 0 2 0 0 ⟨0, 0⟩
      (by decide)).1.2⟩

/-! ## C4 -/

/-- C4: `duplicateShape(i)` on a valid index appends one shape at the end
(new index = prior length), every point of the copy being the corresponding
point of shape `i` translated by `(0.5, 0.5)` with the same color and
opacity; the first `length` shapes — shape `i` included — and the selection
state are untouched. -/
theorem duplicateShape_spec (shapes : Shapes) (sel : Option ℤ) (i : ℕ)
    (hi : i < shapes.length) :
    (duplicateShapeS ⟨shapes, sel⟩ i).selectedShape = sel
  ∧ (duplicateShapeS ⟨shapes, sel⟩ i).shapes.length = shapes.length + 1
  ∧ (duplicateShapeS ⟨shapes, sel⟩ i).shapes.take shapes.length = shapes
  ∧ ((duplicateShapeS ⟨shapes, sel⟩ i).shapes.getD shapes.length []).length
      = (shapes.getD i []).length
  ∧ ∀ j, j < (shapes.getD i []).length →
      ((duplicateShapeS ⟨shapes, sel⟩ i).shapes.getD shapes.length []).getD j default
        = { vector := addVectors ((shapes.getD i []).getD j default).vector
              (createVector 0.5 0.5)
            color := ((shapes.getD i []).getD j default).color
            opacity := ((shapes.getD i []).getD j default).opacity } := by
  refine ⟨rfl, by simp [duplicateShapeS, duplicateShape], ?_, ?_, ?_⟩
  · simpa [duplicateShapeS, duplicateShape] using
      List.take_left shapes [((shapes.getD i []).map fun v =>
        { v with vector := addVectors v.vector (createVector 0.5 0.5) })]
  · simp [duplicateShapeS, duplicateShape, list_getD_append_length]
  · intro j hj
    have hD : (duplicateShapeS ⟨shapes, sel⟩ i).shapes.getD shapes.length []
        = (shapes.getD i []).map fun v =>
            { v with vector := addVectors v.vector (createVector 0.5 0.5) } := by
      simpa [duplicateShapeS, duplicateShape] using
        list_getD_append_length shapes ((shapes.getD i []).map fun v =>
          { v with vector := addVectors v.vector (createVector 0.5 0.5) }) []
    rw [hD, list_getD_map _ _ _ default _ hj]

/-- C4 witness on a concrete one-shape collection. -/
theorem duplicateShape_spec_witness :
    (duplicateShapeS ⟨[[{ vector := ⟨1, 2⟩, color := some "red", opacity := some 1 }]],
        some 0⟩ 0).shapes.take 1
      = [[{ vector := ⟨1, 2⟩, color := some "red", opacity := some 1 }]]
  ∧ ((duplicateShapeS ⟨[[{ vector := ⟨1, 2⟩, color := some "red", opacity := some 1 }]],
        some 0⟩ 0).shapes.getD 1 []).getD 0 default
      = { vector := addVectors ⟨1, 2⟩ (createVector 0.5 0.5), color := some "red",
          opacity := some 1 } := by
  have h := duplicateShape_spec
    [[{ vector := ⟨1, 2⟩, color := some "red", opacity := some 1 }]] (some 0) 0 (by decide)
  exact ⟨h.2.2.1, h.2.2.2.2 0 (by decide)⟩

/-! ## Centroid machinery for C5 and C6 -/

/-- The sum of the x coordinates of a shape's points. -/
def sumX (shape : List PlottedVector) : ℚ := (shape.map fun v => v.vector.x).sum

/-- The sum of the y coordinates of a shape's points. -/
def sumY (shape : List PlottedVector) : ℚ := (shape.map fun v => v.vector.y).sum

theorem sumX_cons (v : PlottedVector) (t : List PlottedVector) :
    sumX (v :: t) = v.vector.x + sumX t := by
  simp [sumX]

theorem sumY_cons (v : PlottedVector) (t : List PlottedVector) :
    sumY (v :: t) = v.vector.y + sumY t := by
  simp [sumY]

/-- The `reduce` in `calculateCenter` computes the componentwise sums. -/
theorem foldl_addVectors (shape : List PlottedVector) (a : Vector) :
    shape.foldl (fun acc v => addVectors acc v.vector) a
      = ⟨a.x + sumX shape, a.y + sumY shape⟩ := by
  induction shape generalizing a with
  | nil => cases a; simp [sumX, sumY]
  | cons v t ih =>
    rw [List.foldl_cons, ih]
    simp only [addVectors, sumX_cons, sumY_cons, Vector.mk.injEq]
    constructor <;> ring

/-- `calculateCenter` is the componentwise mean. -/
theorem calculateCenter_eq (shape : List PlottedVector) :
    calculateCenter shape
      = ⟨sumX shape / shape.length, sumY shape / shape.length⟩ := by
  simp only [calculateCenter, createVector, foldl_addVectors, scaleVector,
    Vector.mk.injEq]
  constructor <;> ring

/-- x-coordinate sum after rotating every point about `ctr`. -/
theorem sumX_map_rotatePoint (shape : List PlottedVector) (c s : ℚ) (ctr : Vector) :
    sumX (shape.map (rotatePoint c s ctr))
      = c * sumX shape - s * sumY shape
        + shape.length * (ctr.x - c * ctr.x + s * ctr.y) := by
  induction shape with
  | nil => simp [sumX, sumY]
  | cons v t ih =>
    have hx : (rotatePoint c s ctr v).vector.x
        = c * (v.vector.x - ctr.x) - s * (v.vector.y - ctr.y) + ctr.x := rfl
    simp only [List.map_cons, sumX_cons, sumY_cons, ih, List.length_cons, hx]
    push_cast
    ring

/-- y-coordinate sum after rotating every point about `ctr`. -/
theorem sumY_map_rotatePoint (shape : List PlottedVector) (c s : ℚ) (ctr : Vector) :
    sumY (shape.map (rotatePoint c s ctr))
      = s * sumX shape + c * sumY shape
        + shape.length * (ctr.y - s * ctr.x - c * ctr.y) := by
  induction shape with
  | nil => simp [sumX, sumY]
  | cons v t ih =>
    have hy : (rotatePoint c s ctr v).vector.y
        = s * (v.vector.x - ctr.x) + c * (v.vector.y - ctr.y) + ctr.y := rfl
    simp only [List.map_cons, sumX_cons, sumY_cons, ih, List.length_cons, hy]
    push_cast
    ring

/-- Rotating a shape about its own centroid leaves the centroid in place.
This holds for any pair of coefficients `(c, s)`, with no unit-circle
assumption: the rotated sum is the linear image of the centred sum, which
is zero. -/
theorem calculateCenter_map_rotatePoint (shape : List PlottedVector) (c s : ℚ)
    (hne : shape ≠ []) :
    calculateCenter (shape.map (rotatePoint c s (calculateCenter shape)))
      = calculateCenter shape := by
  have hn : (shape.length : ℚ) ≠ 0 := by
    simpa using fun hl => hne (List.length_eq_zero.mp hl)
  have hcx : (calculateCenter shape).x = sumX shape / shape.length := by
    rw [calculateCenter_eq]
  have hcy : (calculateCenter shape).y = sumY shape / shape.length := by
    rw [calculateCenter_eq]
  rw [calculateCenter_eq, sumX_map_rotatePoint, sumY_map_rotatePoint,
    calculateCenter_eq shape]
  simp only [List.length_map, hcx, hcy, Vector.mk.injEq]
  constructor <;> (field_simp; try ring)

/-- The shape written by `rotateShape` at a valid index. -/
theorem rotateShape_getD (shapes : Shapes) (i : ℕ) (c s : ℚ)
    (hi : i < shapes.length) :
    (rotateShape shapes i c s).getD i []
      = (shapes.getD i []).map
          (rotatePoint c s (calculateCenter (shapes.getD i []))) := by
  simp only [rotateShape]
  exact list_getD_set_self _ _ _ _ hi

/-- Rotating by `(c, -s)` undoes rotating by `(c, s)` on positions, point
by point, whenever `c ^ 2 + s ^ 2 = 1` (which holds for
`(cos θ, sin θ)`, and `(cos (-θ), sin (-θ)) = (c, -s)`). -/
theorem rotatePoint_inv (c s : ℚ) (hcs : c ^ 2 + s ^ 2 = 1) (ctr : Vector)
    (v : PlottedVector) :
    (rotatePoint c (-s) ctr (rotatePoint c s ctr v)).vector = v.vector := by
  obtain ⟨⟨vx, vy⟩, col, op⟩ := v
  simp only [rotatePoint, subtractVectors, addVectors, createVector,
    Vector.mk.injEq]
  constructor
  · linear_combination (vx - ctr.x) * hcs
  · linear_combination (vy - ctr.y) * hcs

/-! ## C6 -/

/-- C6: rotating a shape with at least one point about its centroid leaves
the recomputed centroid exactly equal to the pre-rotation centroid — over
exact rational arithmetic no tolerance is needed. -/
theorem rotateShape_centroid_invariant (shapes : Shapes) (i : ℕ) (c s : ℚ)
    (hi : i < shapes.length) (hne : shapes.getD i [] ≠ []) :
    calculateCenter ((rotateShape shapes i c s).getD i [])
      = calculateCenter (shapes.getD i []) := by
  rw [rotateShape_getD shapes i c s hi]
  exact calculateCenter_map_rotatePoint _ c s hne

/-- C6 witness on a concrete two-point shape with `(c, s) = (3/5, 4/5)`. -/
theorem rotateShape_centroid_invariant_witness :
    calculateCenter
        ((rotateShape [[{ vector := ⟨1, 0⟩ }, { vector := ⟨0, 1⟩ }]] 0 (3/5) (4/5)).getD 0 [])
      = calculateCenter [{ vector := (⟨1, 0⟩ : Vector) }, { vector := ⟨0, 1⟩ }] :=
  rotateShape_centroid_invariant [[{ vector := ⟨1, 0⟩ }, { vector := ⟨0, 1⟩ }]] 0
    (3/5) (4/5) (by decide) (by decide)

/-! ## C5 -/

/-- C5: `rotateShape` by the angle constants `(c, s)` followed by
`rotateShape` by the opposite angle's constants `(c, -s)` restores every
point position of a nonempty shape exactly (the embedding works over exact
rationals, so no floating tolerance appears). -/
theorem rotateShape_roundtrip (shapes : Shapes) (i : ℕ) (c s : ℚ)
    (hcs : c ^ 2 + s ^ 2 = 1) (hi : i < shapes.length)
    (hne : shapes.getD i [] ≠ []) :
    ((rotateShape (rotateShape shapes i c s) i c (-s)).getD i []).map
        (fun v => v.vector)
      = (shapes.getD i []).map (fun v => v.vector) := by
  have hlen : i < (rotateShape shapes i c s).length := by
    simpa [rotateShape] using hi
  rw [rotateShape_getD _ _ _ _ hlen, rotateShape_getD _ _ _ _ hi,
    calculateCenter_map_rotatePoint _ c s hne, List.map_map, List.map_map]
  exact List.map_congr_left fun v _ => rotatePoint_inv c s hcs _ v

/-- C5 witness on a concrete one-point shape with `(c, s) = (3/5, 4/5)`. -/
theorem rotateShape_roundtrip_witness :
    ((rotateShape (rotateShape [[{ vector := ⟨1, 0⟩ }]] 0 (3/5) (4/5)) 0 (3/5)
        (-(4/5))).getD 0 []).map (fun v => v.vector)
      = [({ vector := ⟨1, 0⟩ } : PlottedVector)].map (fun v => v.vector) :=
  rotateShape_roundtrip [[{ vector := ⟨1, 0⟩ }]] 0 (3/5) (4/5) (by norm_num)
    (by decide) (by decide)

/-! ## C2 -/

/-- The `reduce` inside `serializeToSVG` dominates its starting value. -/
theorem le_foldl_maxAbs : ∀ (l : List PlottedVector) (a : ℚ),
    a ≤ l.foldl (fun m v => max m (max |v.vector.x| |v.vector.y|)) a
  | [], _ => le_refl _
  | v :: t, a =>
    le_trans (le_max_left a _) (le_foldl_maxAbs t (max a _))

/-- The `reduce` inside `serializeToSVG` dominates every element. -/
theorem elem_le_foldl_maxAbs : ∀ (l : List PlottedVector) (a : ℚ)
    (v : PlottedVector), v ∈ l →
    max |v.vector.x| |v.vector.y|
      ≤ l.foldl (fun m v => max m (max |v.vector.x| |v.vector.y|)) a
  | w :: t, a, v, hv => by
    rcases List.mem_cons.mp hv with h | h
    · subst h
      exact le_trans (le_max_right a _) (le_foldl_maxAbs t _)
    · exact elem_le_foldl_maxAbs t _ v h

/-- When `maxValue` comes out `0`, every coordinate of every point is `0`. -/
theorem maxAbs_zero_coords (shapes : Shapes) (hmax : maxAbsCoord shapes = 0)
    (sh : List PlottedVector) (hsh : sh ∈ shapes) (v : PlottedVector)
    (hv : v ∈ sh) : v.vector.x = 0 ∧ v.vector.y = 0 := by
  have hmem : v ∈ shapes.flatten := List.mem_flatten.mpr ⟨sh, hsh, hv⟩
  have hle := elem_le_foldl_maxAbs shapes.flatten 0 v hmem
  rw [show shapes.flatten.foldl
      (fun m v => max m (max |v.vector.x| |v.vector.y|)) 0 = maxAbsCoord shapes
    from rfl, hmax] at hle
  constructor
  · exact abs_nonpos_iff.mp (le_trans (le_max_left _ _) hle)
  · exact abs_nonpos_iff.mp (le_trans (le_max_right _ _) hle)

/-- C2 counterexample: a collection holding one point at the origin has
`maxValue = 0`, and `serializeToSVG` emits the coordinate pair
`(NaN, NaN)` for it — the division `0 / 0` in `scaleCoordinate` is not
guarded, so the output is not a well-defined number. -/
theorem serializeToSVG_nan_cex :
    maxAbsCoord [[{ vector := ⟨0, 0⟩, color := some "red", opacity := some 1 }]] = 0
  ∧ svgPathCoords [[{ vector := ⟨0, 0⟩, color := some "red", opacity := some 1 }]]
      500 500 = [[(JNum.nan, JNum.nan)]] := by
  constructor <;> rfl

/-- C2 (amended): `serializeToSVG` does NOT guard `maxValue == 0`: whenever
the maximum absolute coordinate is `0`, every coordinate it emits is `NaN`
(`0 / 0`), one pair per point; only a collection whose shapes are all empty
escapes, because no coordinate is emitted at all. -/
theorem serializeToSVG_maxValue_zero (shapes : Shapes) (w h : ℚ)
    (hmax : maxAbsCoord shapes = 0) :
    svgPathCoords shapes w h
      = shapes.map fun shape => shape.map fun _ => (JNum.nan, JNum.nan) := by
  simp only [svgPathCoords]
  refine List.map_congr_left fun sh hsh => ?_
  by_cases hlen : sh.length = 0
  · rw [if_pos hlen, List.length_eq_zero.mp hlen, List.map_nil]
  · rw [if_neg hlen]
    refine List.map_congr_left fun v hv => ?_
    obtain ⟨hx, hy⟩ := maxAbs_zero_coords shapes hmax sh hsh v hv
    rw [hx, hy, hmax]
    simp [scaleCoordinate, jsDiv, jsMul, jsAdd, jsSub]

/-- C2 witness at the one-origin-point collection. -/
theorem serializeToSVG_maxValue_zero_witness :
    svgPathCoords [[{ vector := ⟨0, 0⟩, color := some "red", opacity := some 1 }]]
        500 500
      = ([[{ vector := ⟨0, 0⟩, color := some "red", opacity := some 1 }]] : Shapes).map
          fun shape => shape.map fun _ => (JNum.nan, JNum.nan) :=
  serializeToSVG_maxValue_zero
    [[{ vector := ⟨0, 0⟩, color := some "red", opacity := some 1 }]] 500 500 (by decide)

/-! ## C3 -/

/-- The scan finds nothing exactly when no shape is hit. -/
theorem firstHitIndex_none_iff (p : Vector) (t : ℚ) : ∀ (shapes : Shapes),
    firstHitIndex p t shapes = none ↔ ∀ sh ∈ shapes, shapeHit sh p t = false
  | [] => by simp [firstHitIndex]
  | sh :: rest => by
    by_cases hh : shapeHit sh p t
    · simp [firstHitIndex, hh]
    · rw [firstHitIndex, if_neg hh, Option.map_eq_none']
      rw [firstHitIndex_none_iff p t rest]
      simp [Bool.eq_false_iff.mpr hh]

/-- The scan yields `i` exactly when shape `i` is hit and every earlier
shape is missed. -/
theorem firstHitIndex_some_iff (p : Vector) (t : ℚ) : ∀ (shapes : Shapes)
    (i : ℕ),
    firstHitIndex p t shapes = some i
      ↔ ∃ hlt : i < shapes.length,
          shapeHit (shapes.get ⟨i, hlt⟩) p t = true
            ∧ ∀ j, j < i → shapeHit (shapes.getD j []) p t = false
  | [], i => by simp [firstHitIndex]
  | sh :: rest, 0 => by
    by_cases hh : shapeHit sh p t
    · simp [firstHitIndex, hh]
    · rw [firstHitIndex, if_neg hh]
      simp [Bool.eq_false_iff.mpr hh]
  | sh :: rest, i + 1 => by
    by_cases hh : shapeHit sh p t
    · rw [firstHitIndex, if_pos hh]
      constructor
      · intro hcontra
        exact absurd (Option.some.inj hcontra) (by omega)
      · rintro ⟨hlt, -, hmiss⟩
        have h0 := hmiss 0 (Nat.succ_pos i)
        rw [show ((sh :: rest).getD 0 [] : List PlottedVector) = sh from rfl] at h0
        rw [hh] at h0
        cases h0
    · rw [firstHitIndex, if_neg hh]
      constructor
      · intro hmap
        obtain ⟨i', hi', hinc⟩ := Option.map_eq_some'.mp hmap
        have hii : i' = i := by omega
        subst hii
        obtain ⟨hlt, hhit, hmiss⟩ := (firstHitIndex_some_iff p t rest i').mp hi'
        refine ⟨by simpa using Nat.succ_lt_succ hlt, by simpa using hhit, ?_⟩
        intro j hj
        cases j with
        | zero => exact Bool.eq_false_iff.mpr hh
        | succ j' => exact hmiss j' (Nat.lt_of_succ_lt_succ hj)
      · rintro ⟨hlt, hhit, hmiss⟩
        rw [Option.map_eq_some']
        refine ⟨i, ?_, rfl⟩
        refine (firstHitIndex_some_iff p t rest i).mpr
          ⟨Nat.lt_of_succ_lt_succ (by simpa using hlt), by simpa using hhit, ?_⟩
        intro j hj
        exact hmiss (j + 1) (Nat.succ_lt_succ hj)

/-- C3 (spec-modelled): `selectShapeWithPointer` returns the index of the
FIRST shape, in ascending index order, some segment of whose closed
polyline lies within `threshold` of the click point — a scan-order policy,
not a nearest-neighbour search — and returns `-1` exactly when no shape
qualifies.  With two overlapping hit shapes at indices 0 and 1 it therefore
returns 0 (see the witness). -/
theorem selectShapeWithPointer_first (shapes : Shapes) (p : Vector) (t : ℚ) :
    (selectShapeWithPointer shapes p t = -1
      ↔ ∀ sh ∈ shapes, shapeHit sh p t = false)
  ∧ ∀ i : ℕ, selectShapeWithPointer shapes p t = (i : ℤ)
      ↔ ∃ hlt : i < shapes.length,
          shapeHit (shapes.get ⟨i, hlt⟩) p t = true
            ∧ ∀ j, j < i → shapeHit (shapes.getD j []) p t = false := by
  rcases hfi : firstHitIndex p t shapes with _ | k
  · constructor
    · simp only [selectShapeWithPointer, hfi]
      exact ⟨fun _ => (firstHitIndex_none_iff p t shapes).mp hfi, fun _ => trivial⟩
    · intro i
      simp only [selectShapeWithPointer, hfi]
      constructor
      · intro hcontra
        exact absurd hcontra (by omega)
      · rintro ⟨hlt, hhit, -⟩
        have hall := (firstHitIndex_none_iff p t shapes).mp hfi
        have hfalse := hall _ (shapes.get_mem i hlt)
        rw [hhit] at hfalse
        cases hfalse
  · constructor
    · simp only [selectShapeWithPointer, hfi]
      constructor
      · intro hcontra
        exact absurd hcontra (by omega)
      · intro hall
        obtain ⟨hlt, hhit, -⟩ := (firstHitIndex_some_iff p t shapes k).mp hfi
        have hfalse := hall _ (shapes.get_mem k hlt)
        rw [hhit] at hfalse
        cases hfalse
    · intro i
      simp only [selectShapeWithPointer, hfi]
      constructor
      · intro hk
        have hki : k = i := by exact_mod_cast hk
        subst hki
        exact (firstHitIndex_some_iff p t shapes k).mp hfi
      · intro hr
        have hsome := (firstHitIndex_some_iff p t shapes i).mpr hr
        rw [hfi] at hsome
        have hki : k = i := Option.some.inj hsome
        exact_mod_cast congrArg (Nat.cast : ℕ → ℤ) hki

/-- C3 witness: two overlapping identical segments at indices 0 and 1, a
click on the segment, threshold `0.1` — the hit test returns 0, the first
hit in scan order, and a far-away click returns `-1`. -/
theorem selectShapeWithPointer_first_witness :
    selectShapeWithPointer
        [[{ vector := ⟨0, 0⟩ }, { vector := ⟨1, 0⟩ }],
         [{ vector := ⟨0, 0⟩ }, { vector := ⟨1, 0⟩ }]] ⟨1/2, 0⟩ (1/10) = 0
  ∧ selectShapeWithPointer [[{ vector := ⟨0, 0⟩ }, { vector := ⟨1, 0⟩ }]]
      ⟨9, 9⟩ (1/10) = -1 := by
  constructor
  · exact ((selectShapeWithPointer_first
      [[{ vector := ⟨0, 0⟩ }, { vector := ⟨1, 0⟩ }],
       [{ vector := ⟨0, 0⟩ }, { vector := ⟨1, 0⟩ }]] ⟨1/2, 0⟩ (1/10)).2 0).mpr
      ⟨by norm_num,
       (by norm_num [shapeHit, segDistSq, List.range_succ, min_def, max_def] :
         shapeHit [{ vector := ⟨0, 0⟩ }, { vector := ⟨1, 0⟩ }] ⟨1/2, 0⟩ (1/10) = true),
       fun j hj => absurd hj (Nat.not_lt_zero j)⟩
  · refine (selectShapeWithPointer_first
      [[{ vector := ⟨0, 0⟩ }, { vector := ⟨1, 0⟩ }]] ⟨9, 9⟩ (1/10)).1.mpr ?_
    intro sh hsh
    rw [List.eq_of_mem_singleton hsh]
    norm_num [shapeHit, segDistSq, List.range_succ, min_def, max_def]

end VectorPlotter
